import Mathlib

/-!
# Verification development for the x402 mint server

Shallow embedding of the payment-verification / settlement / orchestration core
of the repository (`src/server.ts`, `src/MerchantExecutor.ts`, `src/store.ts`,
`src/whitelist.ts`, `src/MintService.ts`).  External collaborators (the ethers
signature-recovery primitive, the RPC chain, the NFT mint transaction, the
filesystem) are modelled as explicit oracle parameters; everything the
repository itself computes is embedded as executable Lean functions mirroring
the TypeScript control flow.
-/

namespace X402

/-! ## Character-level string primitives

The following helpers implement the string operations the source uses
(`toLowerCase`, `startsWith`, `trim`, `slice`, splitting) directly on the
character list of a `String`, so that every definition in this file can be
evaluated by the kernel on concrete inputs. -/

/-- `s.toLowerCase()`. -/
def strToLower (s : String) : String := ⟨s.data.map Char.toLower⟩

/-- `s.startsWith(p)`. -/
def strStartsWith (s p : String) : Bool := p.data.isPrefixOf s.data

/-- `s.trim()`. -/
def strTrim (s : String) : String :=
  ⟨((s.data.dropWhile Char.isWhitespace).reverse.dropWhile
    Char.isWhitespace).reverse⟩

/-- `s.slice(1)`. -/
def strDropOne (s : String) : String := ⟨s.data.drop 1⟩

/-- Split a character list at every occurrence of `sep` (the separator is
dropped); the empty list yields one empty field, like JS `split`. -/
def splitCharsAux (sep : Char) : List Char → List (List Char)
  | [] => [[]]
  | c :: cs =>
    if c = sep then [] :: splitCharsAux sep cs
    else
      match splitCharsAux sep cs with
      | [] => [[c]]
      | l :: ls => (c :: l) :: ls

/-! ## JS numeric string conversions

`parseJsInt` models the JavaScript conversions used by the source
(`Number(...)` and `BigInt(...)`) restricted to the integer-formatted strings
the system exchanges: an optional leading minus sign followed by decimal
digits, with the empty string converting to `0` (as both `Number('')` and
`BigInt('')` do).  A string outside this grammar converts to `none`
(modelling `NaN` for `Number`, a thrown exception for `BigInt`). -/

def digitsToNat? (s : String) : Option Nat :=
  if s.data ≠ [] ∧ s.data.all Char.isDigit then
    some (s.data.foldl (fun a c => a * 10 + (c.toNat - 48)) 0)
  else none

def parseJsInt (s : String) : Option Int :=
  if s = "" then some 0
  else if strStartsWith s "-" then
    (digitsToNat? (strDropOne s)).map (fun n => -(n : Int))
  else (digitsToNat? s).map (fun n => (n : Int))

/-- Models `Number(x ?? 0)`: a missing field converts to `0`. -/
def jsNumberOpt (o : Option String) : Option Int :=
  match o with
  | none => some 0
  | some s => parseJsInt s

/-- Models the JS `||` fallback on strings (empty string is falsy). -/
def orElseStr (o : Option String) (d : String) : String :=
  match o with
  | some s => if s = "" then d else s
  | none => d

/-! ## Data model (from `x402/types` as used by the source) -/

/-- The EIP-3009 authorization object inside `payload.payload.authorization`.
`from` is a reserved word in Lean, embedded as `fromAddr`.  Fields the source
reads through optional chaining / `??` defaults are `Option`s. -/
structure Authorization where
  fromAddr : String
  toAddr : Option String
  value : String
  validAfter : Option String
  validBefore : Option String
  nonce : String
deriving DecidableEq, Repr

/-- `payload.payload` of an exact-scheme x402 payment payload. -/
structure ExactPayload where
  authorization : Option Authorization
  signature : Option String
deriving DecidableEq, Repr

/-- An x402 `PaymentPayload` as consumed by the merchant executor. -/
structure PaymentPayload where
  scheme : String
  network : String
  payload : ExactPayload
deriving DecidableEq, Repr

/-- An x402 `PaymentRequirements` record (the fields the source reads).
`extra.name` / `extra.version` parameterize the EIP-712 signing domain. -/
structure PaymentRequirements where
  scheme : String
  network : String
  asset : String
  payTo : String
  maxAmountRequired : String
  extraName : Option String
  extraVersion : Option String
deriving DecidableEq, Repr

/-- Result of `MerchantExecutor.verifyPayment` / `verifyPaymentLocally`. -/
structure VerifyResult where
  isValid : Bool
  payer : Option String := none
  invalidReason : Option String := none
deriving DecidableEq, Repr

/-- Result of `MerchantExecutor.settlePayment` / `settleOnChain`. -/
structure SettlementResult where
  success : Bool
  transaction : Option String := none
  network : String
  payer : Option String := none
  errorReason : Option String := none
deriving DecidableEq, Repr

/-- Result of `MintService.mintToAddress`. -/
structure MintResult where
  success : Bool
  transactionHash : Option String := none
  tokenUri : Option String := none
  functionSignature : Option String := none
  errorReason : Option String := none
deriving DecidableEq, Repr

/-! ## EIP-712 domain construction (`MerchantExecutor.buildEip712Domain`) -/

structure Eip712Domain where
  name : String
  version : String
  chainId : Int
  verifyingContract : String
deriving DecidableEq, Repr

/-- One entry of the `NETWORK_CONFIG` table. -/
structure NetworkConfig where
  chainId : Int
  usdcAddress : String
  usdcName : String
  explorer : String
deriving DecidableEq, Repr

/-- The `NETWORK_CONFIG` table of `MerchantExecutor.ts`. -/
def NETWORK_CONFIG (network : String) : Option NetworkConfig :=
  if network = "base" then
    some ⟨8453, "0x833589fCD6eDb6E08f4c7C32D4f71b54bdA02913", "USD Coin",
      "https://basescan.org"⟩
  else if network = "base-sepolia" then
    some ⟨84532, "0x036CbD53842c5426634e7929541eC2318f3dCF7e", "USDC",
      "https://sepolia.basescan.org"⟩
  else if network = "polygon" then
    some ⟨137, "0x3c499c542cEF5E3811e1192ce70d8cC03d5c3359", "USD Coin",
      "https://polygonscan.com"⟩
  else if network = "polygon-amoy" then
    some ⟨80002, "0x41E94Eb019C0762f9Bfcf9Fb1E58725BfB0e7582", "USDC",
      "https://amoy.polygonscan.com"⟩
  else none

/-- `buildEip712Domain(requirements)`: throws (here `Except.error`) on an
unsupported network, otherwise builds the signing domain from the requirement,
falling back to the network's USDC metadata when `extra` is absent/empty. -/
def buildEip712Domain (requirements : PaymentRequirements) :
    Except String Eip712Domain :=
  match NETWORK_CONFIG requirements.network with
  | none =>
      Except.error ("Unsupported network \"" ++ requirements.network ++
        "\" for direct settlement")
  | some config =>
      Except.ok
        { name := orElseStr requirements.extraName config.usdcName
          version := orElseStr requirements.extraVersion "2"
          chainId := config.chainId
          verifyingContract := requirements.asset }

/-! ## Local verification (`MerchantExecutor.verifyPaymentLocally`)

The ethers typed-data signature recovery `ethers.verifyTypedData` is an
external cryptographic primitive; it is passed in as the oracle `recover`,
which receives the signing domain, the authorization message fields and the
signature, and either returns the recovered signer address or throws
(`Except.error`). -/

def verifyPaymentLocally (payload : PaymentPayload)
    (requirements : PaymentRequirements) (now : Int)
    (recover : Eip712Domain → Authorization → String → Except String String) :
    VerifyResult :=
  match payload.payload.authorization, payload.payload.signature with
  | some authorization, some signature =>
    if payload.network ≠ requirements.network then
      { isValid := false
        invalidReason := some ("Network mismatch: " ++ payload.network ++
          " vs " ++ requirements.network) }
    else if authorization.toAddr.map strToLower ≠
        some (strToLower requirements.payTo) then
      { isValid := false
        invalidReason :=
          some "Authorization recipient does not match payment requirement" }
    else
      match parseJsInt requirements.maxAmountRequired,
          parseJsInt authorization.value with
      | some requiredAmount, some authorizedAmount =>
        if authorizedAmount < requiredAmount then
          { isValid := false
            invalidReason :=
              some "Authorized amount is less than required amount" }
        else
          match jsNumberOpt authorization.validAfter,
              jsNumberOpt authorization.validBefore with
          | some validAfterNum, some validBeforeNum =>
            if validAfterNum > now then
              { isValid := false
                invalidReason := some "Payment authorization is not yet valid" }
            else if validBeforeNum ≤ now then
              { isValid := false
                invalidReason := some "Payment authorization has expired" }
            else
              match buildEip712Domain requirements with
              | Except.error e =>
                { isValid := false
                  invalidReason := some ("Signature verification failed: " ++ e) }
              | Except.ok domain =>
                match recover domain authorization signature with
                | Except.error e =>
                  { isValid := false
                    invalidReason :=
                      some ("Signature verification failed: " ++ e) }
                | Except.ok recovered =>
                  if strToLower recovered ≠ strToLower authorization.fromAddr then
                    { isValid := false
                      invalidReason := some "Signature does not match payer address" }
                  else
                    { isValid := true, payer := some recovered }
          | _, _ =>
            { isValid := false
              invalidReason := some "Invalid authorization timing fields" }
      | _, _ =>
        { isValid := false
          invalidReason := some "Invalid payment amount provided" }
  | _, _ =>
    { isValid := false
      invalidReason := some "Missing payment authorization data" }

/-! ## Direct on-chain settlement (`MerchantExecutor.settleOnChain`)

The RPC submission of `transferWithAuthorization` and the wait for the mined
receipt are external I/O; they are modelled by a `ChainOutcome` oracle value:
either the whole `try` block threw somewhere (signature decoding, submission,
provider error — all caught by the single `catch`), or a receipt (possibly
`null`) came back from `tx.wait()`. -/

/-- An ethers transaction receipt as read by the source: `receipt.status`
(`number | null`) and `receipt.hash`. -/
structure Receipt where
  status : Option Int
  hash : String
deriving DecidableEq, Repr

/-- Outcome of the chained `Signature.from` / `transferWithAuthorization` /
`tx.wait()` calls inside the `try` block of `settleOnChain`. -/
inductive ChainOutcome where
  | threw (msg : String)
  | mined (receipt : Option Receipt)
deriving DecidableEq, Repr

/-- `MerchantExecutor.settleOnChain`: embedded as a total function — every
thrown error is consumed by the `catch` and returned as a `Failed` result,
so no exception escapes. -/
def settleOnChain (walletConfigured : Bool) (payload : PaymentPayload)
    (requirements : PaymentRequirements) (chain : ChainOutcome) :
    SettlementResult :=
  if walletConfigured = false then
    { success := false
      network := requirements.network
      errorReason := some "Settlement wallet not configured" }
  else
    match payload.payload.authorization, payload.payload.signature with
    | some authorization, some _ =>
      match chain with
      | ChainOutcome.threw msg =>
        { success := false
          network := requirements.network
          payer := some authorization.fromAddr
          errorReason := some msg }
      | ChainOutcome.mined receipt =>
        let success := receipt.bind Receipt.status = some 1
        { success := success
          transaction := receipt.map Receipt.hash
          network := requirements.network
          payer := some authorization.fromAddr
          errorReason := if success then none else some "Transaction reverted" }
    | _, _ =>
      { success := false
        network := requirements.network
        errorReason := some "Missing payment authorization data" }

/-! ## Persistent store (`store.ts`) -/

/-- The JSON document held in the store file (`mints` keyed by lowercase
address, `processedPayments` a set of payment ids). -/
structure StoreData where
  mints : List (String × Nat)
  processedPayments : List String
deriving DecidableEq, Repr

/-- Outcome of `fs.readFileSync` + `JSON.parse` on the store file:
`failure` covers a missing, unreadable or unparseable file (the `catch`
branch of `readStore`); `success` carries the two top-level keys, each
possibly absent (`parsed?.mints ?? {}`). -/
inductive StoreReadResult where
  | failure
  | success (mints : Option (List (String × Nat)))
      (processedPayments : Option (List String))
deriving DecidableEq, Repr

/-- `readStore()`: any read or parse failure yields the empty store, and a
parsed document is defaulted field-wise with `?? {}`. -/
def readStore : StoreReadResult → StoreData
  | StoreReadResult.failure => ⟨[], []⟩
  | StoreReadResult.success m p => ⟨m.getD [], p.getD []⟩

/-- Membership of a payment id in `store.processedPayments`
(`Boolean(store.processedPayments[paymentId])`). -/
def StoreData.isProcessed (s : StoreData) (paymentId : String) : Bool :=
  s.processedPayments.contains paymentId

/-- Lookup of `store.mints[addr] ?? 0` at an already-lowercased key. -/
def StoreData.mintsAt (s : StoreData) (addr : String) : Nat :=
  match s.mints.lookup addr with
  | some n => n
  | none => 0

/-- `isPaymentProcessed(paymentId)` reading the file through `readStore`. -/
def isPaymentProcessed (r : StoreReadResult) (paymentId : String) : Bool :=
  (readStore r).isProcessed paymentId

/-- `getMintCount(address)` reading the file through `readStore`. -/
def getMintCount (r : StoreReadResult) (address : String) : Nat :=
  (readStore r).mintsAt (strToLower address)

/-- `markPaymentProcessed(paymentId)` as a pure state update on the store
file's logical content. -/
def markPaymentProcessed (s : StoreData) (paymentId : String) : StoreData :=
  { s with processedPayments :=
      if s.processedPayments.contains paymentId then s.processedPayments
      else s.processedPayments ++ [paymentId] }

/-- `incMintCount(address, by)` as a pure state update, returning the new
count like the source does. -/
def incMintCount (s : StoreData) (address : String) (by_ : Nat) :
    Nat × StoreData :=
  let addr := strToLower address
  let next := s.mintsAt addr + by_
  (next, { s with mints := (addr, next) :: s.mints.eraseP (fun kv => kv.1 = addr) })

/-- `paymentIdFromPayload`: the canonical order-independent stringification of
the payload (`stableStringify`, keys sorted alphabetically) followed by a
sha256 hash.  The hash is an external crypto primitive; it is modelled as the
identity on the canonical string, which preserves exactly the property the
store relies on: the fingerprint is a deterministic function of the payload's
fields. -/
def paymentIdFromPayload (p : PaymentPayload) : String :=
  let auth := match p.payload.authorization with
    | none => "undefined"
    | some a =>
      "\x7b\x22from\x22:" ++ a.fromAddr ++
      ",\x22nonce\x22:" ++ a.nonce ++
      ",\x22to\x22:" ++ (a.toAddr.getD "undefined") ++
      ",\x22validAfter\x22:" ++ (a.validAfter.getD "undefined") ++
      ",\x22validBefore\x22:" ++ (a.validBefore.getD "undefined") ++
      ",\x22value\x22:" ++ a.value ++ "\x7d"
  "\x7b\x22network\x22:" ++ p.network ++
    ",\x22payload\x22:\x7b\x22authorization\x22:" ++ auth ++
    ",\x22signature\x22:" ++ (p.payload.signature.getD "undefined") ++
    "\x7d,\x22scheme\x22:" ++ p.scheme ++ "\x7d"

/-! ## Whitelist (`whitelist.ts`) -/

/-- The module-level cache of `whitelist.ts`. -/
structure WhitelistCache where
  cachedWhitelist : Option (List String)
  lastLoadedMs : Int
deriving DecidableEq, Repr

/-- `parseWhitelistFile`: trim each line, drop blanks and `#`-comments,
lowercase the rest (the `Set` is modelled as a deduplicated list). -/
def parseWhitelistFile (contents : String) : List String :=
  (((splitCharsAux '\n' contents.data).map (fun l => strTrim ⟨l⟩)).foldl
    (fun entries line =>
      if line = "" ∨ strStartsWith line "#" then entries
      else if entries.contains (strToLower line) then entries
      else entries ++ [strToLower line])
    [])

/-- `getWhitelist()`: serve the cache while it is fresh, otherwise re-read the
file (`fileRead` is the `fs.readFileSync` oracle; `Except.error` is the catch
branch, which caches the empty set).  Returns the whitelist together with the
updated cache. -/
def getWhitelist (ttlMs now : Int) (fileRead : Except String String)
    (st : WhitelistCache) : List String × WhitelistCache :=
  match st.cachedWhitelist with
  | some cached =>
    if now - st.lastLoadedMs < ttlMs then (cached, st)
    else
      match fileRead with
      | Except.ok text =>
        (parseWhitelistFile text, ⟨some (parseWhitelistFile text), now⟩)
      | Except.error _ => ([], ⟨some [], now⟩)
  | none =>
    match fileRead with
    | Except.ok text =>
      (parseWhitelistFile text, ⟨some (parseWhitelistFile text), now⟩)
    | Except.error _ => ([], ⟨some [], now⟩)

/-- `isWhitelisted(address)`: membership of the lowercased address in the
current whitelist. -/
def isWhitelisted (ttlMs now : Int) (fileRead : Except String String)
    (st : WhitelistCache) (address : String) : Bool :=
  (getWhitelist ttlMs now fileRead st).1.contains (strToLower address)

/-! ## The `/mint` orchestrator (`server.ts`, `POST /mint`)

The handler is embedded from the point where a payment payload and the
`payment-submitted` status have been extracted from the request body (the
earlier multi-shape field extraction only locates these two values).  The
external collaborators are injected:

* `cfg` — the `{ whitelistEnabled, perAddressLimit }` snapshot returned by
  `getConfig()`;
* `wl` — the whitelist entries currently served by `getWhitelist()`;
* `mint` — the `mintToAddress` oracle (the NFT transaction is external I/O);
* `settle` — the result of the single `settlePayment` call (external I/O);
* `store` — the logical content of the store file threaded through the
  `store.ts` read-modify-write helpers.

Besides the HTTP response and the updated store, the embedding returns the
trace of side-effecting calls the handler issued, in order, so that the
ordering invariants of the spec are statable. -/

/-- The `{ whitelistEnabled, perAddressLimit }` configuration snapshot
returned by `getConfig()`. -/
structure AppConfig where
  whitelistEnabled : Bool
  perAddressLimit : Option Nat
deriving DecidableEq, Repr

/-- Observable side-effecting calls issued by the `/mint` handler. -/
inductive Ev where
  | mintCall (addr : String)
  | incCall (addr : String)
  | markCall (paymentId : String)
  | settleCall
deriving DecidableEq, Repr

/-- The structured responses the `/mint` handler can return. -/
inductive MintResponse where
  | paymentRejected (reason : String)
  | payerUnavailable
  | notWhitelisted (payer : String)
  | alreadyProcessed (payer : String) (remainingMints : Option Nat)
  | mintLimitReached (limit : Nat) (payer : String)
  | mintFailed (reason : Option String) (payer : String)
  | minted (payer : String) (mintTxHash : String) (tokenUri : Option String)
      (settlement : SettlementResult) (remainingMints : Option Nat)
  | settlementFailed (payer : String) (mintTxHash : String)
      (tokenUri : Option String) (settlement : SettlementResult)
      (remainingMints : Option Nat)
deriving DecidableEq, Repr

/-- `perAddressLimit != null && used >= perAddressLimit`. -/
def overLimit (perAddressLimit : Option Nat) (used : Nat) : Bool :=
  match perAddressLimit with
  | some limit => used ≥ limit
  | none => false

/-- `perAddressLimit == null ? null : Math.max(0, perAddressLimit - n)`
(the truncated subtraction on `Nat` is exactly `Math.max(0, ·)`). -/
def remainingMints (perAddressLimit : Option Nat) (n : Nat) : Option Nat :=
  perAddressLimit.map (fun l => l - n)

/-- Tail of the `src/server.ts` handler from `mintToAddress` on: on mint
success, `incMintCount` and `markPaymentProcessed` run **before**
`settlePayment` ("Record mint usage and idempotency as soon as mint
succeeds"), and the settlement result is echoed in the response whatever its
outcome. -/
def mintAndSettle (payer paymentId : String) (cfg : AppConfig)
    (mint : String → MintResult) (settle : SettlementResult)
    (store : StoreData) : MintResponse × StoreData × List Ev :=
  let mintR := mint payer
  if mintR.success = false ∨ mintR.transactionHash.getD "" = "" then
    (MintResponse.mintFailed mintR.errorReason payer, store, [Ev.mintCall payer])
  else
    let incd := incMintCount store payer 1
    let store₂ := markPaymentProcessed incd.2 paymentId
    (MintResponse.minted payer (mintR.transactionHash.getD "") mintR.tokenUri
      settle (remainingMints cfg.perAddressLimit incd.1),
      store₂,
      [Ev.mintCall payer, Ev.incCall payer, Ev.markCall paymentId, Ev.settleCall])

/-- The `POST /mint` handler of `src/server.ts`: verify, whitelist gate,
idempotency check, quota check, then `mintAndSettle`. -/
def mintHandler (payload : PaymentPayload) (requirements : PaymentRequirements)
    (now : Int)
    (recover : Eip712Domain → Authorization → String → Except String String)
    (cfg : AppConfig) (wl : List String) (mint : String → MintResult)
    (settle : SettlementResult) (store : StoreData) :
    MintResponse × StoreData × List Ev :=
  let verifyResult := verifyPaymentLocally payload requirements now recover
  if verifyResult.isValid = false then
    (MintResponse.paymentRejected (verifyResult.invalidReason.getD "Invalid payment"),
      store, [])
  else
    let payer := strToLower (verifyResult.payer.getD "")
    if payer = "" then (MintResponse.payerUnavailable, store, [])
    else if cfg.whitelistEnabled ∧ ¬ wl.contains (strToLower payer) then
      (MintResponse.notWhitelisted payer, store, [])
    else
      let paymentId := paymentIdFromPayload payload
      if store.isProcessed paymentId then
        (MintResponse.alreadyProcessed payer
          (remainingMints cfg.perAddressLimit (store.mintsAt payer)), store, [])
      else if overLimit cfg.perAddressLimit (store.mintsAt payer) then
        (MintResponse.mintLimitReached (cfg.perAddressLimit.getD 0) payer,
          store, [])
      else
        mintAndSettle payer paymentId cfg mint settle store

/-- Tail of the `unnamed/part_008` revision of the handler from
`mintToAddress` on: `incMintCount` on mint success, then **settle before
marking** — on settlement failure the payment is not marked processed
("allows retry if settlement fails") and a distinct `settlement-failed`
response is returned; only after settlement success does
`markPaymentProcessed` run. -/
def mintAndSettleV2 (payer paymentId : String) (cfg : AppConfig)
    (mint : String → MintResult) (settle : SettlementResult)
    (store : StoreData) : MintResponse × StoreData × List Ev :=
  let mintR := mint payer
  if mintR.success = false ∨ mintR.transactionHash.getD "" = "" then
    (MintResponse.mintFailed mintR.errorReason payer, store, [Ev.mintCall payer])
  else
    let incd := incMintCount store payer 1
    if settle.success = false then
      (MintResponse.settlementFailed payer (mintR.transactionHash.getD "")
        mintR.tokenUri settle (remainingMints cfg.perAddressLimit incd.1),
        incd.2,
        [Ev.mintCall payer, Ev.incCall payer, Ev.settleCall])
    else
      (MintResponse.minted payer (mintR.transactionHash.getD "") mintR.tokenUri
        settle (remainingMints cfg.perAddressLimit incd.1),
        markPaymentProcessed incd.2 paymentId,
        [Ev.mintCall payer, Ev.incCall payer, Ev.settleCall, Ev.markCall paymentId])

/-- The `POST /mint` handler of the `unnamed/part_008` revision of
`server.ts`; identical to `mintHandler` up to the mint step, then
`mintAndSettleV2` (settle first, mark only on settlement success). -/
def mintHandlerV2 (payload : PaymentPayload)
    (requirements : PaymentRequirements) (now : Int)
    (recover : Eip712Domain → Authorization → String → Except String String)
    (cfg : AppConfig) (wl : List String) (mint : String → MintResult)
    (settle : SettlementResult) (store : StoreData) :
    MintResponse × StoreData × List Ev :=
  let verifyResult := verifyPaymentLocally payload requirements now recover
  if verifyResult.isValid = false then
    (MintResponse.paymentRejected (verifyResult.invalidReason.getD "Invalid payment"),
      store, [])
  else
    let payer := strToLower (verifyResult.payer.getD "")
    if payer = "" then (MintResponse.payerUnavailable, store, [])
    else if cfg.whitelistEnabled ∧ ¬ wl.contains (strToLower payer) then
      (MintResponse.notWhitelisted payer, store, [])
    else
      let paymentId := paymentIdFromPayload payload
      if store.isProcessed paymentId then
        (MintResponse.alreadyProcessed payer
          (remainingMints cfg.perAddressLimit (store.mintsAt payer)), store, [])
      else if overLimit cfg.perAddressLimit (store.mintsAt payer) then
        (MintResponse.mintLimitReached (cfg.perAddressLimit.getD 0) payer,
          store, [])
      else
        mintAndSettleV2 payer paymentId cfg mint settle store

/-! ## Trace ordering -/

/-- `e₁` occurs strictly before `e₂` in the trace `t`. -/
def occursBefore (e₁ e₂ : Ev) (t : List Ev) : Prop :=
  ∃ i j, i < j ∧ t.get? i = some e₁ ∧ t.get? j = some e₂

/-! ## Concrete fixtures

A payment requirement and a payload that pass every verification step under
the oracle `recover0` (which recovers exactly the payload's `from` address,
i.e. models a correctly signed payload), plus the oracles for the mint and
settlement collaborators. -/

def req0 : PaymentRequirements :=
  { scheme := "exact", network := "base", asset := "0xAsset",
    payTo := "0xMerchant", maxAmountRequired := "100000",
    extraName := some "USD Coin", extraVersion := some "2" }

def auth0 : Authorization :=
  { fromAddr := "0xPayerA", toAddr := some "0xMerchant", value := "100000",
    validAfter := some "0", validBefore := some "2000000000", nonce := "0xN1" }

def payload0 : PaymentPayload :=
  { scheme := "exact", network := "base", payload := ⟨some auth0, some "0xSig"⟩ }

/-- Recovery oracle of a correctly signed payload: the recovered signer is the
payload's `from` address. -/
def recover0 : Eip712Domain → Authorization → String → Except String String :=
  fun _ auth _ => Except.ok auth.fromAddr

/-- Recovery oracle of a forged payload: the signature recovers to an address
different from the asserted `from`. -/
def recoverForged : Eip712Domain → Authorization → String → Except String String :=
  fun _ _ _ => Except.ok "0xSomeoneElse"

def cfg0 : AppConfig := ⟨true, some 3⟩

def wl0 : List String := ["0xpayera"]

def mint0 : String → MintResult :=
  fun _ => ⟨true, some "0xMintTx", some "ipfs://1", none, none⟩

def settleOk0 : SettlementResult :=
  ⟨true, some "0xSettleTx", "base", some "0xPayerA", none⟩

def settleFail0 : SettlementResult :=
  ⟨false, none, "base", some "0xPayerA", some "facilitator unreachable"⟩

def store0 : StoreData := ⟨[], []⟩

/-- The fingerprint of `payload0`. -/
def pid0 : String := paymentIdFromPayload payload0

/-- `payload0` with a mismatched scheme but a matching network. -/
def payloadBadScheme : PaymentPayload := { payload0 with scheme := "bogus" }

/-- `payload0` with a negative `validAfter`. -/
def payloadNegValidAfter : PaymentPayload :=
  { payload0 with
    payload := ⟨some { auth0 with validAfter := some "-5" }, some "0xSig"⟩ }

/-! ## Theorems -/

/-- C9: if the persistent store file is missing, unreadable, or fails to
parse as JSON (`StoreReadResult.failure`), every store read returns the empty
store: `isPaymentProcessed` is `false` for every payment id and
`getMintCount` is `0` for every address — a corrupted or deleted store file
silently resets both the idempotency ledger and all quota counts. -/
theorem store_read_failure_resets_ledgers :
    ∀ (paymentId address : String),
      isPaymentProcessed StoreReadResult.failure paymentId = false ∧
      getMintCount StoreReadResult.failure address = 0 ∧
      readStore StoreReadResult.failure = ⟨[], []⟩ := by
  intro paymentId address
  refine ⟨rfl, rfl, rfl⟩

/-- C10: if the allow-list file cannot be read, `getWhitelist` caches the
empty set stamped at `now`, `isWhitelisted` returns `false` for every
address, and for the whole TTL window any further lookup (with any file
content, even a readable one) still serves the cached empty set — the gate
fails closed. -/
theorem whitelist_read_failure_fails_closed
    (ttlMs now : Int) (e : String) (st : WhitelistCache)
    (fileRead : Except String String)
    (hstale : st.cachedWhitelist = none ∨ ttlMs ≤ now - st.lastLoadedMs)
    (hread : fileRead = Except.error e) :
    (∀ address, isWhitelisted ttlMs now fileRead st address = false) ∧
    (getWhitelist ttlMs now fileRead st).2 = ⟨some [], now⟩ ∧
    (∀ (now' : Int) (fileRead' : Except String String),
      now' - now < ttlMs →
      (getWhitelist ttlMs now' fileRead'
        (getWhitelist ttlMs now fileRead st).2).1 = []) := by
  subst hread
  have hgw : getWhitelist ttlMs now (Except.error e) st = ([], ⟨some [], now⟩) := by
    rcases hstale with h | h
    · simp [getWhitelist, h]
    · rcases hc : st.cachedWhitelist with _ | cached
      · simp [getWhitelist, hc]
      · have : ¬ now - st.lastLoadedMs < ttlMs := by omega
        simp [getWhitelist, hc, this]
  refine ⟨?_, ?_, ?_⟩
  · intro address
    simp [isWhitelisted, hgw]
  · rw [hgw]
  · intro now' fileRead' hfresh
    rw [hgw]
    simp [getWhitelist, hfresh]

/-- C10 witness: a cold cache, an unreadable file, a concrete address and a
fresh re-read inside the TTL window. -/
theorem whitelist_read_failure_fails_closed_witness :
    isWhitelisted 60000 5000 (Except.error "ENOENT") ⟨none, 0⟩ "0xPayerA" = false ∧
    (getWhitelist 60000 6000 (Except.ok "0xpayera")
      (getWhitelist 60000 5000 (Except.error "ENOENT") ⟨none, 0⟩).2).1 = [] := by
  have h := whitelist_read_failure_fails_closed 60000 5000 "ENOENT" ⟨none, 0⟩
    (Except.error "ENOENT") (Or.inl rfl) rfl
  exact ⟨h.1 "0xPayerA", h.2.2 6000 (Except.ok "0xpayera") (by norm_num)⟩

/-- C8: with a configured wallet and a well-formed payload, direct
settlement succeeds exactly when the awaited receipt reports status `1`; any
other receipt (including a null one) yields a failed result with reason
"Transaction reverted", and a thrown submission/provider error is caught and
returned as a failed result carrying the error message — `settleOnChain` is a
total function, so no exception propagates. -/
theorem settleOnChain_success_iff_receipt_status_one
    (payload : PaymentPayload) (requirements : PaymentRequirements)
    (chain : ChainOutcome) (authorization : Authorization) (signature : String)
    (hauth : payload.payload.authorization = some authorization)
    (hsig : payload.payload.signature = some signature) :
    ((settleOnChain true payload requirements chain).success = true ↔
      ∃ receipt, chain = ChainOutcome.mined (some receipt) ∧
        receipt.status = some 1) ∧
    (∀ receipt, chain = ChainOutcome.mined receipt →
      receipt.bind Receipt.status ≠ some 1 →
      settleOnChain true payload requirements chain =
        ⟨false, receipt.map Receipt.hash, requirements.network,
          some authorization.fromAddr, some "Transaction reverted"⟩) ∧
    (∀ msg, chain = ChainOutcome.threw msg →
      settleOnChain true payload requirements chain =
        ⟨false, none, requirements.network, some authorization.fromAddr,
          some msg⟩) := by
  refine ⟨?_, ?_, ?_⟩
  · constructor
    · intro hs
      cases chain with
      | threw msg => simp [settleOnChain, hauth, hsig] at hs
      | mined receipt =>
        cases receipt with
        | none => simp [settleOnChain, hauth, hsig] at hs
        | some rc =>
          refine ⟨rc, rfl, ?_⟩
          simpa [settleOnChain, hauth, hsig] using hs
    · rintro ⟨rc, rfl, hrc⟩
      simp [settleOnChain, hauth, hsig, hrc]
  · intro receipt hc hne
    subst hc
    simp only [settleOnChain, hauth, hsig]
    simp [hne]
  · intro msg hc
    subst hc
    simp [settleOnChain, hauth, hsig]

/-- C8 witness: the three concrete chain outcomes — a status-1 receipt, a
reverted receipt, and a thrown provider error. -/
theorem settleOnChain_success_iff_receipt_status_one_witness :
    (settleOnChain true payload0 req0
      (ChainOutcome.mined (some ⟨some 1, "0xH"⟩))).success = true ∧
    settleOnChain true payload0 req0 (ChainOutcome.mined (some ⟨some 0, "0xH"⟩)) =
      ⟨false, some "0xH", "base", some "0xPayerA", some "Transaction reverted"⟩ ∧
    settleOnChain true payload0 req0 (ChainOutcome.threw "rpc down") =
      ⟨false, none, "base", some "0xPayerA", some "rpc down"⟩ := by
  have h₁ := settleOnChain_success_iff_receipt_status_one payload0 req0
    (ChainOutcome.mined (some ⟨some 1, "0xH"⟩)) auth0 "0xSig" rfl rfl
  have h₂ := settleOnChain_success_iff_receipt_status_one payload0 req0
    (ChainOutcome.mined (some ⟨some 0, "0xH"⟩)) auth0 "0xSig" rfl rfl
  have h₃ := settleOnChain_success_iff_receipt_status_one payload0 req0
    (ChainOutcome.threw "rpc down") auth0 "0xSig" rfl rfl
  refine ⟨h₁.1.mpr ⟨⟨some 1, "0xH"⟩, rfl, rfl⟩, ?_, h₃.2.2 "rpc down" rfl⟩
  exact h₂.2.1 (some ⟨some 0, "0xH"⟩) rfl (by decide)

/-- C3 counterexample: a payload whose scheme differs from the requirement's
scheme (`"bogus"` vs `"exact"`) but whose network matches is accepted as
Valid by local verification — the scheme is never compared. -/
theorem verify_accepts_scheme_mismatch :
    payloadBadScheme.scheme ≠ req0.scheme ∧
    payloadBadScheme.network = req0.network ∧
    (verifyPaymentLocally payloadBadScheme req0 1000 recover0).isValid = true := by
  refine ⟨by decide, rfl, by decide⟩

/-- C3 (amended): local verification rejects as Invalid any payload whose
network differs, by exact string equality, from the requirement's network;
the payload's scheme is never compared — the verification result is
independent of the scheme field. -/
theorem verify_network_mismatch_only
    (sch net : String) (authorization : Authorization) (signature : String)
    (requirements : PaymentRequirements) (now : Int)
    (recover : Eip712Domain → Authorization → String → Except String String) :
    (net ≠ requirements.network →
      verifyPaymentLocally ⟨sch, net, ⟨some authorization, some signature⟩⟩
          requirements now recover =
        { isValid := false
          invalidReason := some ("Network mismatch: " ++ net ++ " vs " ++
            requirements.network) }) ∧
    (∀ sch' : String,
      verifyPaymentLocally ⟨sch', net, ⟨some authorization, some signature⟩⟩
          requirements now recover =
        verifyPaymentLocally ⟨sch, net, ⟨some authorization, some signature⟩⟩
          requirements now recover) := by
  constructor
  · intro hnet
    simp [verifyPaymentLocally, hnet]
  · intro sch'
    rfl

/-- C3 witness: a concrete network mismatch is rejected with the exact
reason, and replacing the scheme of `payload0` leaves the verification
result unchanged. -/
theorem verify_network_mismatch_only_witness :
    verifyPaymentLocally ⟨"exact", "polygon", ⟨some auth0, some "0xSig"⟩⟩
        req0 1000 recover0 =
      { isValid := false
        invalidReason := some "Network mismatch: polygon vs base" } ∧
    verifyPaymentLocally ⟨"bogus", "base", ⟨some auth0, some "0xSig"⟩⟩
        req0 1000 recover0 =
      verifyPaymentLocally ⟨"exact", "base", ⟨some auth0, some "0xSig"⟩⟩
        req0 1000 recover0 := by
  have h := verify_network_mismatch_only "exact" "polygon" auth0 "0xSig"
    req0 1000 recover0
  have h' := verify_network_mismatch_only "exact" "base" auth0 "0xSig"
    req0 1000 recover0
  exact ⟨h.1 (by decide), h'.2 "bogus"⟩

/-- C4: whenever local verification returns Valid, its `payer` field is
exactly the address recovered by the typed-data signature recovery oracle
(never a caller-asserted field), and that address agrees case-insensitively
with `payload.from`; conversely, whenever the recovery oracle yields an
address that differs case-insensitively from the payload's `from`, the
outcome is Invalid. -/
theorem verify_payer_is_recovered_signer
    (payload : PaymentPayload) (requirements : PaymentRequirements) (now : Int)
    (recover : Eip712Domain → Authorization → String → Except String String)
    (res : VerifyResult)
    (hres : verifyPaymentLocally payload requirements now recover = res) :
    (res.isValid = true →
      ∃ authorization signature domain recovered,
        payload.payload.authorization = some authorization ∧
        payload.payload.signature = some signature ∧
        buildEip712Domain requirements = Except.ok domain ∧
        recover domain authorization signature = Except.ok recovered ∧
        res.payer = some recovered ∧
        strToLower recovered = strToLower authorization.fromAddr) ∧
    (∀ authorization signature domain recovered,
        payload.payload.authorization = some authorization →
        payload.payload.signature = some signature →
        buildEip712Domain requirements = Except.ok domain →
        recover domain authorization signature = Except.ok recovered →
        strToLower recovered ≠ strToLower authorization.fromAddr →
        res.isValid = false) := by
  have main : res.isValid = true →
      ∃ authorization signature domain recovered,
        payload.payload.authorization = some authorization ∧
        payload.payload.signature = some signature ∧
        buildEip712Domain requirements = Except.ok domain ∧
        recover domain authorization signature = Except.ok recovered ∧
        res.payer = some recovered ∧
        strToLower recovered = strToLower authorization.fromAddr := by
    intro hs
    rcases payload with ⟨sch, net, auth?, sig?⟩
    cases auth? with
    | none => simp only [verifyPaymentLocally] at hres; subst hres; simp at hs
    | some authorization =>
      cases sig? with
      | none => simp only [verifyPaymentLocally] at hres; subst hres; simp at hs
      | some signature =>
        simp only [verifyPaymentLocally] at hres
        repeat' split at hres
        all_goals subst hres
        all_goals try simp at hs
        rename_i xdom domain hdom xrec recovered hrec hlow
        exact ⟨authorization, signature, domain, recovered, rfl, rfl, hdom, hrec,
          rfl, not_ne_iff.mp hlow⟩
  refine ⟨main, ?_⟩
  intro authorization signature domain recovered ha hsg hdom hrec hlow
  cases hval : res.isValid with
  | false => rfl
  | true =>
    rcases main hval with ⟨a', s', d', r', ha', hs', hd', hr', _, hlow'⟩
    rw [ha] at ha'
    rw [hsg] at hs'
    rw [hdom] at hd'
    cases ha'
    cases hs'
    cases hd'
    rw [hrec] at hr'
    cases hr'
    exact absurd hlow' hlow

/-- C4 witness: a correctly signed payload is Valid with the recovered
address as payer, and a payload whose signature recovers to a different
address than its `from` field is Invalid. -/
theorem verify_payer_is_recovered_signer_witness :
    (∃ authorization signature domain recovered,
        payload0.payload.authorization = some authorization ∧
        payload0.payload.signature = some signature ∧
        buildEip712Domain req0 = Except.ok domain ∧
        recover0 domain authorization signature = Except.ok recovered ∧
        (verifyPaymentLocally payload0 req0 1000 recover0).payer = some recovered ∧
        strToLower recovered = strToLower authorization.fromAddr) ∧
    (verifyPaymentLocally payload0 req0 1000 recoverForged).isValid = false := by
  constructor
  · exact (verify_payer_is_recovered_signer payload0 req0 1000 recover0 _ rfl).1
      (by decide)
  · exact (verify_payer_is_recovered_signer payload0 req0 1000 recoverForged _
      rfl).2 auth0 "0xSig" ⟨"USD Coin", "2", 8453, "0xAsset"⟩ "0xSomeoneElse"
      rfl rfl rfl rfl (by decide)

/-- C7 counterexample: `validAfter = "-5"` parses to the negative integer
`-5`, yet local verification accepts the payload as Valid — the timing
fields are not required to be non-negative. -/
theorem verify_accepts_negative_validAfter :
    parseJsInt "-5" = some (-5) ∧ ((-5 : Int) < 0) ∧
    (verifyPaymentLocally payloadNegValidAfter req0 1000 recover0).isValid = true := by
  exact ⟨by decide, by decide, by decide⟩

/-- C7 (amended): after the amount check passes, verification converts
`validAfter` and `validBefore` with JS `Number` (a missing field defaults to
`0`); a field that fails to convert (`NaN`) is Invalid with reason "Invalid
authorization timing fields"; then `validAfter > now` is rejected first as
not yet valid, then `validBefore <= now` as expired; any value that
converts — negative ones included — is otherwise accepted and verification
proceeds to signature recovery. -/
theorem verify_timing_window
    (sch net : String) (authorization : Authorization) (signature : String)
    (requirements : PaymentRequirements) (now : Int)
    (recover : Eip712Domain → Authorization → String → Except String String)
    (hnet : net = requirements.network)
    (hto : authorization.toAddr.map strToLower =
      some (strToLower requirements.payTo))
    (ramt vamt : Int)
    (hr : parseJsInt requirements.maxAmountRequired = some ramt)
    (hv : parseJsInt authorization.value = some vamt)
    (hamt : ¬ vamt < ramt) :
    ((jsNumberOpt authorization.validAfter = none ∨
        jsNumberOpt authorization.validBefore = none) →
      verifyPaymentLocally ⟨sch, net, ⟨some authorization, some signature⟩⟩
          requirements now recover =
        { isValid := false
          invalidReason := some "Invalid authorization timing fields" }) ∧
    (∀ validAfterNum validBeforeNum : Int,
      jsNumberOpt authorization.validAfter = some validAfterNum →
      jsNumberOpt authorization.validBefore = some validBeforeNum →
      ((validAfterNum > now →
        verifyPaymentLocally ⟨sch, net, ⟨some authorization, some signature⟩⟩
            requirements now recover =
          { isValid := false
            invalidReason := some "Payment authorization is not yet valid" }) ∧
       (¬ validAfterNum > now → validBeforeNum ≤ now →
        verifyPaymentLocally ⟨sch, net, ⟨some authorization, some signature⟩⟩
            requirements now recover =
          { isValid := false
            invalidReason := some "Payment authorization has expired" }) ∧
       (¬ validAfterNum > now → ¬ validBeforeNum ≤ now →
        ∀ domain, buildEip712Domain requirements = Except.ok domain →
          recover domain authorization signature =
            Except.ok authorization.fromAddr →
          verifyPaymentLocally ⟨sch, net, ⟨some authorization, some signature⟩⟩
              requirements now recover =
            { isValid := true, payer := some authorization.fromAddr }))) := by
  refine ⟨?_, ?_⟩
  · intro h
    rcases hva : jsNumberOpt authorization.validAfter with _ | va
    · simp [verifyPaymentLocally, hnet, hto, hr, hv, hamt, hva]
    · rcases hvb : jsNumberOpt authorization.validBefore with _ | vb
      · simp [verifyPaymentLocally, hnet, hto, hr, hv, hamt, hva, hvb]
      · rcases h with h | h
        · rw [hva] at h; exact absurd h (by simp)
        · rw [hvb] at h; exact absurd h (by simp)
  · intro validAfterNum validBeforeNum hva hvb
    refine ⟨?_, ?_, ?_⟩
    · intro hlt
      simp [verifyPaymentLocally, hnet, hto, hr, hv, hamt, hva, hvb, hlt]
    · intro hnlt hbe
      simp [verifyPaymentLocally, hnet, hto, hr, hv, hamt, hva, hvb, hnlt, hbe]
    · intro hnlt hnbe domain hdom hrec
      simp [verifyPaymentLocally, hnet, hto, hr, hv, hamt, hva, hvb, hnlt,
        hnbe, hdom, hrec]

/-- C7 witness: a concrete expired payload, a not-yet-valid payload, a
non-numeric timing field, and a negative `validAfter` that passes through to
a Valid outcome. -/
theorem verify_timing_window_witness :
    verifyPaymentLocally
        ⟨"exact", "base", ⟨some { auth0 with validBefore := some "500" },
          some "0xSig"⟩⟩ req0 1000 recover0 =
      { isValid := false
        invalidReason := some "Payment authorization has expired" } ∧
    verifyPaymentLocally
        ⟨"exact", "base", ⟨some { auth0 with validAfter := some "2000" },
          some "0xSig"⟩⟩ req0 1000 recover0 =
      { isValid := false
        invalidReason := some "Payment authorization is not yet valid" } ∧
    verifyPaymentLocally
        ⟨"exact", "base", ⟨some { auth0 with validAfter := some "xx" },
          some "0xSig"⟩⟩ req0 1000 recover0 =
      { isValid := false
        invalidReason := some "Invalid authorization timing fields" } ∧
    verifyPaymentLocally payloadNegValidAfter req0 1000 recover0 =
      { isValid := true, payer := some "0xPayerA" } := by
  refine ⟨?_, ?_, ?_, ?_⟩
  · exact ((verify_timing_window "exact" "base"
      { auth0 with validBefore := some "500" } "0xSig" req0 1000 recover0
      rfl (by decide) 100000 100000 (by decide) (by decide) (by decide)).2
      0 500 (by decide) (by decide)).2.1 (by decide) (by decide)
  · exact ((verify_timing_window "exact" "base"
      { auth0 with validAfter := some "2000" } "0xSig" req0 1000 recover0
      rfl (by decide) 100000 100000 (by decide) (by decide) (by decide)).2
      2000 2000000000 (by decide) (by decide)).1 (by decide)
  · exact (verify_timing_window "exact" "base"
      { auth0 with validAfter := some "xx" } "0xSig" req0 1000 recover0
      rfl (by decide) 100000 100000 (by decide) (by decide) (by decide)).1
      (Or.inl (by decide))
  · exact ((verify_timing_window "exact" "base"
      { auth0 with validAfter := some "-5" } "0xSig" req0 1000 recover0
      rfl (by decide) 100000 100000 (by decide) (by decide) (by decide)).2
      (-5) 2000000000 (by decide) (by decide)).2.2 (by decide) (by decide)
      ⟨"USD Coin", "2", 8453, "0xAsset"⟩ rfl rfl

/-- Every trace of the `src/server.ts` handler is one of: empty (rejected,
denied, deduplicated or over quota), a lone failed mint call, or the full
mint-increment-mark-settle sequence (in that order). -/
theorem mintHandler_trace_cases
    (payload : PaymentPayload) (requirements : PaymentRequirements) (now : Int)
    (recover : Eip712Domain → Authorization → String → Except String String)
    (cfg : AppConfig) (wl : List String) (mint : String → MintResult)
    (settle : SettlementResult) (store : StoreData) (payer : String)
    (hpayer : payer =
      strToLower ((verifyPaymentLocally payload requirements now recover).payer.getD "")) :
    (mintHandler payload requirements now recover cfg wl mint settle store).2.2 = [] ∨
    (((mint payer).success = false ∨ (mint payer).transactionHash.getD "" = "") ∧
      (mintHandler payload requirements now recover cfg wl mint settle store).2.2 =
        [Ev.mintCall payer]) ∨
    ((mint payer).success = true ∧ (mint payer).transactionHash.getD "" ≠ "" ∧
      (mintHandler payload requirements now recover cfg wl mint settle store).2.2 =
        [Ev.mintCall payer, Ev.incCall payer,
          Ev.markCall (paymentIdFromPayload payload), Ev.settleCall]) := by
  subst hpayer
  simp only [mintHandler, mintAndSettle]
  repeat' split
  · exact Or.inl rfl
  · exact Or.inl rfl
  · exact Or.inl rfl
  · exact Or.inl rfl
  · exact Or.inl rfl
  · rename_i hfail
    exact Or.inr (Or.inl ⟨hfail, rfl⟩)
  · rename_i hok
    rw [not_or] at hok
    exact Or.inr (Or.inr ⟨by simpa using hok.1, hok.2, rfl⟩)

set_option maxRecDepth 100000 in
/-- C1: in the `src/server.ts` handler, a concrete fully-verified request
whose settlement fails still marks the idempotency ledger — the
`markPaymentProcessed` call occurs strictly before the `settlePayment`
call in the trace, and the fingerprint stays marked although the settlement
returned failure.  This exhibits the divergence from the spec's "mark only
after settlement success" invariant (which the `unnamed/part_008` revision
implements). -/
theorem mint_marks_fingerprint_despite_failed_settlement :
    settleFail0.success = false ∧
    (mintHandler payload0 req0 1000 recover0 cfg0 wl0 mint0 settleFail0
        store0).2.2 =
      [Ev.mintCall "0xpayera", Ev.incCall "0xpayera", Ev.markCall pid0,
        Ev.settleCall] ∧
    occursBefore (Ev.markCall pid0) Ev.settleCall
      (mintHandler payload0 req0 1000 recover0 cfg0 wl0 mint0 settleFail0
        store0).2.2 ∧
    ((mintHandler payload0 req0 1000 recover0 cfg0 wl0 mint0 settleFail0
        store0).2.1).isProcessed pid0 = true := by
  refine ⟨rfl, by decide, ⟨2, 3, by decide, by decide, by decide⟩, by decide⟩

/-- The `unnamed/part_008` revision of the handler satisfies the spec's
ordering invariant: the idempotency ledger is marked only when the
settlement succeeded, and the mark event always comes strictly after the
settlement call. -/
theorem mintHandlerV2_marks_only_after_settlement_success
    (payload : PaymentPayload) (requirements : PaymentRequirements) (now : Int)
    (recover : Eip712Domain → Authorization → String → Except String String)
    (cfg : AppConfig) (wl : List String) (mint : String → MintResult)
    (settle : SettlementResult) (store : StoreData)
    (out : MintResponse × StoreData × List Ev)
    (hout : mintHandlerV2 payload requirements now recover cfg wl mint settle
      store = out) :
    ∀ pid, Ev.markCall pid ∈ out.2.2 →
      settle.success = true ∧
      occursBefore Ev.settleCall (Ev.markCall pid) out.2.2 := by
  intro pid hmem
  simp only [mintHandlerV2, mintAndSettleV2] at hout
  repeat' split at hout
  all_goals subst hout
  all_goals simp at hmem
  subst hmem
  rename_i hsettle
  exact ⟨by simpa using hsettle, 2, 3, by norm_num, rfl, rfl⟩

set_option maxRecDepth 100000 in
/-- C2 counterexample: after a fully successful first call, replaying the
identical payload returns the generic already-processed acknowledgment,
which differs from the first call's response — the handler does not record
and replay the first outcome. -/
theorem mint_replay_not_recorded_outcome :
    ((mintHandler payload0 req0 1000 recover0 cfg0 wl0 mint0 settleOk0
        store0).2.1).isProcessed pid0 = true ∧
    (mintHandler payload0 req0 1000 recover0 cfg0 wl0 mint0 settleOk0
      (mintHandler payload0 req0 1000 recover0 cfg0 wl0 mint0 settleOk0
        store0).2.1).1 ≠
      (mintHandler payload0 req0 1000 recover0 cfg0 wl0 mint0 settleOk0
        store0).1 ∧
    (mintHandler payload0 req0 1000 recover0 cfg0 wl0 mint0 settleOk0
      (mintHandler payload0 req0 1000 recover0 cfg0 wl0 mint0 settleOk0
        store0).2.1).2.2 = [] := by
  exact ⟨by decide, by decide, by decide⟩

/-- C2 (amended): when a payload's fingerprint is already present in the
idempotency ledger, a second submission of the identical payload invokes
neither `mintToAddress` nor `settlePayment` (its trace is empty), and — when
it passes verification and the eligibility gate — it returns the generic
already-processed acknowledgment carrying the payer and the remaining quota,
not the first call's recorded outcome. -/
theorem mint_replay_skips_side_effect_and_settlement
    (payload : PaymentPayload) (requirements : PaymentRequirements) (now : Int)
    (recover : Eip712Domain → Authorization → String → Except String String)
    (cfg : AppConfig) (wl : List String) (mint : String → MintResult)
    (settle : SettlementResult) (store : StoreData) (payer : String)
    (hpayer : payer =
      strToLower ((verifyPaymentLocally payload requirements now recover).payer.getD ""))
    (hproc : store.isProcessed (paymentIdFromPayload payload) = true) :
    (mintHandler payload requirements now recover cfg wl mint settle
      store).2.2 = [] ∧
    ((verifyPaymentLocally payload requirements now recover).isValid = true →
      payer ≠ "" →
      (cfg.whitelistEnabled = true → wl.contains (strToLower payer) = true) →
      (mintHandler payload requirements now recover cfg wl mint settle
        store).1 =
        MintResponse.alreadyProcessed payer
          (remainingMints cfg.perAddressLimit (store.mintsAt payer))) := by
  subst hpayer
  constructor
  · simp only [mintHandler]
    repeat' split
    all_goals first
      | rfl
      | (exact absurd hproc (by assumption))
  · intro hval hpne hwl
    have hv' : ¬ (verifyPaymentLocally payload requirements now recover).isValid
        = false := by simp [hval]
    have hg : ¬ (cfg.whitelistEnabled = true ∧
        ¬ wl.contains (strToLower (strToLower
          ((verifyPaymentLocally payload requirements now
            recover).payer.getD ""))) = true) := by
      rintro ⟨he, hc⟩
      exact hc (hwl he)
    simp only [mintHandler]
    rw [if_neg hv', if_neg hpne, if_neg hg, if_pos hproc]

set_option maxRecDepth 100000 in
/-- C2 witness: the concrete replay of `payload0` after a successful first
call — empty trace and the already-processed response. -/
theorem mint_replay_skips_side_effect_and_settlement_witness :
    (mintHandler payload0 req0 1000 recover0 cfg0 wl0 mint0 settleOk0
      (mintHandler payload0 req0 1000 recover0 cfg0 wl0 mint0 settleOk0
        store0).2.1).2.2 = [] ∧
    (mintHandler payload0 req0 1000 recover0 cfg0 wl0 mint0 settleOk0
      (mintHandler payload0 req0 1000 recover0 cfg0 wl0 mint0 settleOk0
        store0).2.1).1 =
      MintResponse.alreadyProcessed "0xpayera" (some 2) := by
  have h := mint_replay_skips_side_effect_and_settlement payload0 req0 1000
    recover0 cfg0 wl0 mint0 settleOk0
    (mintHandler payload0 req0 1000 recover0 cfg0 wl0 mint0 settleOk0
      store0).2.1 "0xpayera" (by decide) (by decide)
  refine ⟨h.1, ?_⟩
  rw [h.2 (by decide) (by decide) (fun _ => by decide)]
  decide

/-- C5: a request whose verified payer is denied by the whitelist gate, or
whose mint count has already reached the per-address limit, produces a trace
with zero `mintToAddress` calls and zero `settlePayment` calls. -/
theorem denied_payer_never_minted_or_settled
    (payload : PaymentPayload) (requirements : PaymentRequirements) (now : Int)
    (recover : Eip712Domain → Authorization → String → Except String String)
    (cfg : AppConfig) (wl : List String) (mint : String → MintResult)
    (settle : SettlementResult) (store : StoreData) (payer : String)
    (hpayer : payer =
      strToLower ((verifyPaymentLocally payload requirements now recover).payer.getD ""))
    (hdenied : (cfg.whitelistEnabled = true ∧
        wl.contains (strToLower payer) = false) ∨
      overLimit cfg.perAddressLimit (store.mintsAt payer) = true) :
    (∀ a, Ev.mintCall a ∉
      (mintHandler payload requirements now recover cfg wl mint settle
        store).2.2) ∧
    Ev.settleCall ∉
      (mintHandler payload requirements now recover cfg wl mint settle
        store).2.2 := by
  subst hpayer
  have htr : (mintHandler payload requirements now recover cfg wl mint settle
      store).2.2 = [] := by
    simp only [mintHandler, mintAndSettle]
    split
    · rfl
    split
    · rfl
    split
    · rfl
    split
    · rfl
    split
    · rfl
    rename_i hgate hnproc hnover
    exfalso
    rcases hdenied with ⟨he, hc⟩ | hov
    · exact hgate ⟨he, fun hcc => by rw [hcc] at hc; cases hc⟩
    · exact hnover hov
  rw [htr]
  exact ⟨fun a => List.not_mem_nil _, List.not_mem_nil _⟩

/-- C5 witness: a verified payer absent from the whitelist while the gate is
enabled, and a payer whose count already equals the limit — neither trace
contains a mint or settle call. -/
theorem denied_payer_never_minted_or_settled_witness :
    (Ev.settleCall ∉
      (mintHandler payload0 req0 1000 recover0 cfg0 [] mint0 settleOk0
        store0).2.2) ∧
    (∀ a, Ev.mintCall a ∉
      (mintHandler payload0 req0 1000 recover0 cfg0 [] mint0 settleOk0
        store0).2.2) ∧
    (Ev.settleCall ∉
      (mintHandler payload0 req0 1000 recover0 cfg0 wl0 mint0 settleOk0
        ⟨[("0xpayera", 3)], []⟩).2.2) ∧
    (∀ a, Ev.mintCall a ∉
      (mintHandler payload0 req0 1000 recover0 cfg0 wl0 mint0 settleOk0
        ⟨[("0xpayera", 3)], []⟩).2.2) := by
  have h₁ := denied_payer_never_minted_or_settled payload0 req0 1000 recover0
    cfg0 [] mint0 settleOk0 store0 "0xpayera" (by decide)
    (Or.inl ⟨rfl, by decide⟩)
  have h₂ := denied_payer_never_minted_or_settled payload0 req0 1000 recover0
    cfg0 wl0 mint0 settleOk0 ⟨[("0xpayera", 3)], []⟩ "0xpayera" (by decide)
    (Or.inr (by decide))
  exact ⟨h₁.2, h₁.1, h₂.2, h₂.1⟩

/-- Every trace of the `unnamed/part_008` revision of the handler is one of:
empty, a lone failed mint call, the mint-increment-settle sequence (failed
settlement), or the full mint-increment-settle-mark sequence. -/
theorem mintHandlerV2_trace_cases
    (payload : PaymentPayload) (requirements : PaymentRequirements) (now : Int)
    (recover : Eip712Domain → Authorization → String → Except String String)
    (cfg : AppConfig) (wl : List String) (mint : String → MintResult)
    (settle : SettlementResult) (store : StoreData) (payer : String)
    (hpayer : payer =
      strToLower ((verifyPaymentLocally payload requirements now recover).payer.getD "")) :
    (mintHandlerV2 payload requirements now recover cfg wl mint settle
      store).2.2 = [] ∨
    (((mint payer).success = false ∨ (mint payer).transactionHash.getD "" = "") ∧
      (mintHandlerV2 payload requirements now recover cfg wl mint settle
        store).2.2 = [Ev.mintCall payer]) ∨
    ((mint payer).success = true ∧ (mint payer).transactionHash.getD "" ≠ "" ∧
      ((mintHandlerV2 payload requirements now recover cfg wl mint settle
          store).2.2 =
        [Ev.mintCall payer, Ev.incCall payer, Ev.settleCall] ∨
       (mintHandlerV2 payload requirements now recover cfg wl mint settle
          store).2.2 =
        [Ev.mintCall payer, Ev.incCall payer, Ev.settleCall,
          Ev.markCall (paymentIdFromPayload payload)])) := by
  subst hpayer
  simp only [mintHandlerV2, mintAndSettleV2]
  repeat' split
  · exact Or.inl rfl
  · exact Or.inl rfl
  · exact Or.inl rfl
  · exact Or.inl rfl
  · exact Or.inl rfl
  · rename_i hfail
    exact Or.inr (Or.inl ⟨hfail, rfl⟩)
  · rename_i hok _
    rw [not_or] at hok
    exact Or.inr (Or.inr ⟨by simpa using hok.1, hok.2, Or.inl rfl⟩)
  · rename_i hok _
    rw [not_or] at hok
    exact Or.inr (Or.inr ⟨by simpa using hok.1, hok.2, Or.inr rfl⟩)

/-- C6: in every trace of the `/mint` handler — in both the `src/server.ts`
revision and the `unnamed/part_008` revision — a quota increment only occurs
for the verified payer, only when `mintToAddress` reported success with a
non-empty transaction hash, strictly after the mint call, and strictly
before the settlement call; when the side effect failed, no trace contains a
quota increment. -/
theorem quota_increment_after_mint_before_settlement
    (payload : PaymentPayload) (requirements : PaymentRequirements) (now : Int)
    (recover : Eip712Domain → Authorization → String → Except String String)
    (cfg : AppConfig) (wl : List String) (mint : String → MintResult)
    (settle : SettlementResult) (store : StoreData) (payer : String)
    (hpayer : payer =
      strToLower ((verifyPaymentLocally payload requirements now recover).payer.getD "")) :
    (∀ a, Ev.incCall a ∈
        (mintHandler payload requirements now recover cfg wl mint settle
          store).2.2 →
      a = payer ∧ (mint payer).success = true ∧
      (mint payer).transactionHash.getD "" ≠ "" ∧
      occursBefore (Ev.mintCall payer) (Ev.incCall payer)
        (mintHandler payload requirements now recover cfg wl mint settle
          store).2.2 ∧
      occursBefore (Ev.incCall payer) Ev.settleCall
        (mintHandler payload requirements now recover cfg wl mint settle
          store).2.2) ∧
    ((mint payer).success = false →
      ∀ a, Ev.incCall a ∉
        (mintHandler payload requirements now recover cfg wl mint settle
          store).2.2) ∧
    (∀ a, Ev.incCall a ∈
        (mintHandlerV2 payload requirements now recover cfg wl mint settle
          store).2.2 →
      a = payer ∧ (mint payer).success = true ∧
      (mint payer).transactionHash.getD "" ≠ "" ∧
      occursBefore (Ev.mintCall payer) (Ev.incCall payer)
        (mintHandlerV2 payload requirements now recover cfg wl mint settle
          store).2.2 ∧
      occursBefore (Ev.incCall payer) Ev.settleCall
        (mintHandlerV2 payload requirements now recover cfg wl mint settle
          store).2.2) ∧
    ((mint payer).success = false →
      ∀ a, Ev.incCall a ∉
        (mintHandlerV2 payload requirements now recover cfg wl mint settle
          store).2.2) := by
  refine ⟨?_, ?_, ?_, ?_⟩
  · rcases mintHandler_trace_cases payload requirements now recover cfg wl
      mint settle store payer hpayer with htr | ⟨_, htr⟩ | ⟨hsucc, hhash, htr⟩
    · rw [htr]
      exact fun a ha => absurd ha (List.not_mem_nil _)
    · rw [htr]
      intro a ha
      simp at ha
    · rw [htr]
      intro a ha
      have haeq : a = payer := by simpa using ha
      subst haeq
      exact ⟨rfl, hsucc, hhash, ⟨0, 1, by norm_num, rfl, rfl⟩,
        ⟨1, 3, by norm_num, rfl, rfl⟩⟩
  · rcases mintHandler_trace_cases payload requirements now recover cfg wl
      mint settle store payer hpayer with htr | ⟨_, htr⟩ | ⟨hsucc, hhash, htr⟩
    · rw [htr]
      exact fun _ a => List.not_mem_nil _
    · rw [htr]
      intro _ a ha
      simp at ha
    · intro hfail
      rw [hsucc] at hfail
      cases hfail
  · rcases mintHandlerV2_trace_cases payload requirements now recover cfg wl
      mint settle store payer hpayer
      with htr | ⟨_, htr⟩ | ⟨hsucc, hhash, htr | htr⟩
    · rw [htr]
      exact fun a ha => absurd ha (List.not_mem_nil _)
    · rw [htr]
      intro a ha
      simp at ha
    · rw [htr]
      intro a ha
      have haeq : a = payer := by simpa using ha
      subst haeq
      exact ⟨rfl, hsucc, hhash, ⟨0, 1, by norm_num, rfl, rfl⟩,
        ⟨1, 2, by norm_num, rfl, rfl⟩⟩
    · rw [htr]
      intro a ha
      have haeq : a = payer := by simpa using ha
      subst haeq
      exact ⟨rfl, hsucc, hhash, ⟨0, 1, by norm_num, rfl, rfl⟩,
        ⟨1, 2, by norm_num, rfl, rfl⟩⟩
  · rcases mintHandlerV2_trace_cases payload requirements now recover cfg wl
      mint settle store payer hpayer
      with htr | ⟨_, htr⟩ | ⟨hsucc, hhash, _⟩
    · rw [htr]
      exact fun _ a => List.not_mem_nil _
    · rw [htr]
      intro _ a ha
      simp at ha
    · intro hfail
      rw [hsucc] at hfail
      cases hfail

/-- C6 witness: in the concrete successful run, the quota increment for the
verified payer sits strictly after the mint call and strictly before the
settlement call; and with a failing mint oracle no increment occurs. -/
theorem quota_increment_after_mint_before_settlement_witness :
    occursBefore (Ev.mintCall "0xpayera") (Ev.incCall "0xpayera")
      (mintHandler payload0 req0 1000 recover0 cfg0 wl0 mint0 settleOk0
        store0).2.2 ∧
    occursBefore (Ev.incCall "0xpayera") Ev.settleCall
      (mintHandler payload0 req0 1000 recover0 cfg0 wl0 mint0 settleOk0
        store0).2.2 ∧
    (∀ a, Ev.incCall a ∉
      (mintHandler payload0 req0 1000 recover0 cfg0 wl0
        (fun _ => ⟨false, none, none, none, some "mint reverted"⟩) settleOk0
        store0).2.2) := by
  have h := (quota_increment_after_mint_before_settlement payload0 req0 1000
    recover0 cfg0 wl0 mint0 settleOk0 store0 "0xpayera" (by decide)).1
    "0xpayera" (by decide)
  have h' := (quota_increment_after_mint_before_settlement payload0 req0 1000
    recover0 cfg0 wl0
    (fun _ => ⟨false, none, none, none, some "mint reverted"⟩) settleOk0
    store0 "0xpayera" (by decide)).2.1 rfl
  exact ⟨h.2.2.2.1, h.2.2.2.2, h'⟩

end X402
